import Mathlib

/-!
Shallow embedding of `src/vt-playground.ts` (the vt-playground web component):
the log classifier and printer (`printLog`, `renderLogs`, `SUPPORTED_LOG_LEVELS`),
the execution orchestrator (`run`), and the code synchronization controller
(the `update` hook and the editor update listener), together with models of the
two external value-rendering libraries the printer delegates to
(`stringify-object` and `easy-table`).
-/

namespace VtPlayground

/-- A JavaScript runtime value, as a closed sum: strings, numbers, booleans,
null, undefined, arrays and plain objects (ordered key/value fields). This is
the universe over which `Log.args` ranges (`args: unknown[]` in the source). -/
inductive Value where
  | vStr : String → Value
  | vNum : Int → Value
  | vBool : Bool → Value
  | vNull : Value
  | vUndefined : Value
  | vArr : List Value → Value
  | vObj : List (String × Value) → Value
deriving Repr

mutual

/-- JavaScript string coercion `String(v)` / `'' + v`, used by the easy-table
cell printer and by property-key coercion. Arrays join their elements with
commas (null/undefined elements become empty); objects coerce to
"[object Object]". -/
def jsString : Value → String
  | Value.vStr s => s
  | Value.vNum n => toString n
  | Value.vBool b => if b then "true" else "false"
  | Value.vNull => "null"
  | Value.vUndefined => "undefined"
  | Value.vArr xs => jsStringSep xs
  | Value.vObj _ => "[object Object]"

/-- Elements of an array under JS string coercion, comma-separated
(Array.prototype.join with the default separator). -/
def jsStringSep : List Value → String
  | [] => ""
  | [v] => jsStringElem v
  | v :: vs => jsStringElem v ++ "," ++ jsStringSep vs

/-- One array element under `join`: null and undefined render as empty. -/
def jsStringElem : Value → String
  | Value.vNull => ""
  | Value.vUndefined => ""
  | v => jsString v

end

mutual

/-- Model of the `stringify-object` library used at line 290 of the source:
a structural pretty-printer for non-string values (nested strings quoted,
objects as key: value lists, arrays bracketed). -/
def stringifyObject : Value → String
  | Value.vStr s => "\x27" ++ s ++ "\x27"
  | Value.vNum n => toString n
  | Value.vBool b => if b then "true" else "false"
  | Value.vNull => "null"
  | Value.vUndefined => "undefined"
  | Value.vArr xs => "[" ++ stringifySeq xs ++ "]"
  | Value.vObj kvs => "\x7b" ++ stringifyFields kvs ++ "\x7d"

/-- Array elements of a stringified value, comma-separated. -/
def stringifySeq : List Value → String
  | [] => ""
  | [v] => stringifyObject v
  | v :: vs => stringifyObject v ++ ", " ++ stringifySeq vs

/-- Object fields of a stringified value, comma-separated. -/
def stringifyFields : List (String × Value) → String
  | [] => ""
  | [(k, v)] => k ++ ": " ++ stringifyObject v
  | (k, v) :: kvs => k ++ ": " ++ stringifyObject v ++ ", " ++ stringifyFields kvs

end

/-- The per-argument formatter of `printLog` (source lines 286-291):
a string argument passes through unchanged, every other value goes through
`stringifyObject`. -/
def format : Value → String
  | Value.vStr s => s
  | v => stringifyObject v

/-- One log record of the remote execution response (source lines 19-22):
a level string and an ordered argument list. -/
structure Log where
  level : String
  args : List Value
deriving Repr

/-- Source line 24: the level filter list. -/
def SUPPORTED_LOG_LEVELS : List String := ["table", "log", "info", "warn", "error"]

/-- The stored execution result (source lines 70-73): ordered logs plus a
duration in milliseconds. -/
structure ExecutionResult where
  logs : List Log
  duration : Nat
deriving Repr

/-- JavaScript `Object.keys(row)` (source line 267): own enumerable keys of an
object in declared order, index strings for arrays and strings, empty for
numbers and booleans, and a thrown TypeError for null/undefined. -/
def jsKeys : Value → Except String (List String)
  | Value.vObj kvs => Except.ok (kvs.map Prod.fst)
  | Value.vArr xs => Except.ok ((List.range xs.length).map toString)
  | Value.vStr s => Except.ok ((List.range s.length).map toString)
  | Value.vNum _ => Except.ok []
  | Value.vBool _ => Except.ok []
  | Value.vNull => Except.error "TypeError: Cannot convert null to object"
  | Value.vUndefined => Except.error "TypeError: Cannot convert undefined to object"

/-- The cell value expression `row[column] ?? ''` (source line 277): property
lookup with null/undefined/missing collapsing to the empty string. -/
def jsGetD (row : Value) (c : String) : Value :=
  match row with
  | Value.vObj kvs =>
    match kvs.find? (fun kv => kv.1 == c) with
    | some kv =>
      match kv.2 with
      | Value.vNull => Value.vStr ""
      | Value.vUndefined => Value.vStr ""
      | v => v
    | none => Value.vStr ""
  | Value.vArr xs =>
    match c.toNat? with
    | some i =>
      match xs[i]? with
      | some Value.vNull => Value.vStr ""
      | some Value.vUndefined => Value.vStr ""
      | some v => v
      | none => Value.vStr ""
    | none => Value.vStr ""
  | _ => Value.vStr ""

/-- One iteration of the `rows.forEach` loop in `printLog` (source lines
266-280): derive this row's columns from its own keys, override them with the
second argument when one is supplied (failing if that argument is not an
array), then emit the implicit index cell followed by one cell per column. -/
def rowCells (args : List Value) (idx : Nat) (row : Value) :
    Except String (List (String × String)) :=
  match jsKeys row with
  | Except.error e => Except.error e
  | Except.ok keys =>
    let ecols : Except String (List String) :=
      if args.length > 1 then
        match args[1]? with
        | some (Value.vArr cs) => Except.ok (cs.map jsString)
        | _ => Except.error "Invalid table columns"
      else Except.ok keys
    match ecols with
    | Except.error e => Except.error e
    | Except.ok columns =>
      Except.ok (("(idx)", toString idx) ::
        columns.map (fun c => (c, jsString (jsGetD row c))))

/-- The whole `rows.forEach` loop, threading the running row index and
propagating the first thrown error. -/
def tableRowsAux (args : List Value) : Nat → List Value →
    Except String (List (List (String × String)))
  | _, [] => Except.ok []
  | idx, r :: rs =>
    match rowCells args idx r with
    | Except.error e => Except.error e
    | Except.ok c =>
      match tableRowsAux args (idx + 1) rs with
      | Except.error e => Except.error e
      | Except.ok rest => Except.ok (c :: rest)

/-- The cells accumulated into the easy-table instance by `printLog`'s table
branch, one list of (column, cell text) pairs per row in order. -/
def tableRows (args : List Value) (rows : List Value) :
    Except String (List (List (String × String))) :=
  tableRowsAux args 0 rows

/-- Insert column names into the accumulated column order, keeping the first
occurrence of each (easy-table records columns in first-use order). -/
def addColumns (acc : List String) : List String → List String
  | [] => acc
  | c :: cs => if acc.contains c then addColumns acc cs else addColumns (acc ++ [c]) cs

/-- Fold the per-row cell lists into the table's printed column order. -/
def collectColumnsAux (acc : List String) :
    List (List (String × String)) → List String
  | [] => acc
  | row :: rest => collectColumnsAux (addColumns acc (row.map Prod.fst)) rest

/-- The set of columns the rendered table prints, in first-appearance order
across all rows. -/
def collectColumns (cells : List (List (String × String))) : List String :=
  collectColumnsAux [] cells

/-- Width of one printed column: the maximum of the header width and every
cell width in that column. -/
def columnWidth (cells : List (List (String × String))) (c : String) : Nat :=
  cells.foldl
    (fun w row =>
      match row.find? (fun kv => kv.1 == c) with
      | some kv => max w kv.2.length
      | none => w)
    c.length

/-- Pad a cell to its column width with trailing spaces. -/
def padRight (s : String) (w : Nat) : String :=
  s ++ String.mk (List.replicate (w - s.length) ' ')

/-- Model of `easy-table`'s `toString` (source line 282): header row,
dash separator, then one aligned line per data row; a row prints the empty
string under a column it has no cell for. -/
def tableToString (cells : List (List (String × String))) : String :=
  let cols := collectColumns cells
  let header := String.intercalate "  " (cols.map (fun c => padRight c (columnWidth cells c)))
  let sep := String.intercalate "  "
    (cols.map (fun c => String.mk (List.replicate (columnWidth cells c) '-')))
  let body := cells.map (fun row =>
    String.intercalate "  " (cols.map (fun c =>
      padRight
        (match row.find? (fun kv => kv.1 == c) with
         | some kv => kv.2
         | none => "")
        (columnWidth cells c))))
  String.intercalate "\n" (header :: sep :: body)

/-- Whether `Array.isArray(log.args[0])` holds (source line 260); an absent
first argument is `undefined`, which is not an array. -/
def firstArgIsArray (log : Log) : Bool :=
  match log.args[0]? with
  | some (Value.vArr _) => true
  | _ => false

/-- Whether the record carries an explicit second argument that is not an
array (the shape line 269 rejects — but only when at least one row exists). -/
def secondArgPresentNonArray (log : Log) : Bool :=
  match log.args[1]? with
  | some (Value.vArr _) => false
  | some _ => true
  | none => false

/-- The `printLog` function (source lines 258-293): an Error thrown in the
source is an `Except.error` here. A `table` record renders through the table
model; every other record joins the formatted arguments with single spaces. -/
def printLog (log : Log) : Except String String :=
  if log.level = "table" then
    match log.args[0]? with
    | some (Value.vArr rows) =>
      match tableRows log.args rows with
      | Except.error e => Except.error e
      | Except.ok cells => Except.ok (tableToString cells)
    | _ => Except.error "Invalid table rows"
  else
    Except.ok (String.intercalate " " (log.args.map format))

/-- The severity classification applied per rendered record (the classMap at
source lines 189-193): red for error, yellow for warn, blue (muted) for debug,
default styling otherwise. -/
def classify (level : String) : String :=
  if level = "error" then "error"
  else if level = "warn" then "warning"
  else if level = "debug" then "muted"
  else "normal"

/-- The `.map` over the filtered logs in `renderLogs` (source lines 178-184):
each record is printed eagerly; a thrown formatting error aborts the whole
pass (there is no per-record catch in the source). -/
def renderList : List Log → Except String (List (String × String))
  | [] => Except.ok []
  | log :: rest =>
    match printLog log with
    | Except.error e => Except.error e
    | Except.ok t =>
      match renderList rest with
      | Except.error e => Except.error e
      | Except.ok rs => Except.ok ((classify log.level, t) :: rs)

/-- The `renderLogs` method (source lines 174-198): nothing when no result is
stored, otherwise the supported-level filter followed by per-record printing
and classification, producing (severity, text) pairs in received order. -/
def renderLogs (res : Option ExecutionResult) :
    Except String (List (String × String)) :=
  match res with
  | none => Except.ok []
  | some r =>
    renderList (r.logs.filter (fun log => SUPPORTED_LOG_LEVELS.contains log.level))

/-- The component state the execution orchestrator touches: the disabled
flag, the running flag, the stored result and the current code. -/
structure PlaygroundState where
  disabled : Bool
  isRunning : Bool
  res : Option ExecutionResult
  code : String
deriving Repr

/-- The outcome of the synchronous prefix of `run()` up to the `fetch`
suspension point (source lines 138-153): the state at that point, whether the
disabled warning was reported, and the code payload of the issued request
(none when no request was issued). -/
structure RunStart where
  state : PlaygroundState
  warned : Bool
  request : Option String
deriving Repr

/-- The part of `run()` that executes before the network request resolves
(source lines 138-153): a disabled component warns and returns untouched;
otherwise `isRunning` is set and one request carrying the current code is
issued. Nothing else in the state changes — in particular `res` is not
cleared. -/
def runStart (s : PlaygroundState) : RunStart :=
  if s.disabled then
    { state := s, warned := true, request := none }
  else
    { state := { s with isRunning := true }, warned := false, request := some s.code }

/-- The response shape `run()` resumes with: transport status plus the parsed
body fields (source lines 154-164). -/
structure EvalResponse where
  ok : Bool
  text : String
  jsonOk : Bool
  jsonLogs : List Log
  jsonDuration : Nat
  jsonError : String
deriving Repr

/-- The continuation of `run()` after the request resolves (source lines
154-167): `isRunning` drops, a non-2xx response or an ok:false body throws
(leaving `res` untouched), and an ok:true body replaces `res` wholesale. -/
def runResume (s : PlaygroundState) (resp : EvalResponse) :
    PlaygroundState × Except String Unit :=
  let s1 := { s with isRunning := false }
  if resp.ok = false then (s1, Except.error resp.text)
  else if resp.jsonOk then
    ({ s1 with res := some { logs := resp.jsonLogs, duration := resp.jsonDuration } },
      Except.ok ())
  else (s1, Except.error resp.jsonError)

/-- An editor update event as the CodeMirror update listener sees it (source
lines 109-118): whether the document changed in this update, and the
document's full content after the update. -/
structure EditorUpdate where
  docChanged : Bool
  content : String
deriving Repr

/-- An outward notification dispatched by the component. -/
inductive OutEvent where
  | codeChange : String → OutEvent
deriving Repr

/-- The update listener installed in `firstUpdated` (source lines 109-118):
updates with no document change are ignored; any document change overwrites
`code` with the new content and dispatches one code-change event — there is no
comparison of the new content against the current `code`. Returns the new
`code` value and the list of dispatched events. -/
def updateListener (code : String) (u : EditorUpdate) : String × List OutEvent :=
  if u.docChanged = false then (code, [])
  else (u.content, [OutEvent.codeChange u.content])

/-- The code-synchronization state: the `code` property, the editor
document's content, and a count of document-replace commands dispatched. -/
structure SyncState where
  code : String
  doc : String
  replaces : Nat
deriving Repr

/-- An external push of a new `code` property value, followed by the `update`
hook (source lines 78-95): setting the property to its current value triggers
no update pass; otherwise `update` compares the document content with the new
code and dispatches a full-document replace only when they differ. -/
def externalPush (v : String) (s : SyncState) : SyncState :=
  if v = s.code then s
  else if s.doc = v then { s with code := v }
  else { code := v, doc := v, replaces := s.replaces + 1 }

/-- C9: when the disabled flag is set, run() performs no network request and
leaves all orchestrator state unchanged (isRunning and the stored result
untouched); it only reports a warning condition. -/
theorem run_disabled_noop (s : PlaygroundState) (h : s.disabled = true) :
    (runStart s).state = s ∧ (runStart s).request = none ∧
    (runStart s).warned = true := by
  simp [runStart, h]

theorem run_disabled_noop_wit :
    ({ disabled := true, isRunning := false,
       res := some { logs := [], duration := 7 }, code := "x" } : PlaygroundState).disabled
      = true ∧
    ((runStart { disabled := true, isRunning := false,
                 res := some { logs := [], duration := 7 }, code := "x" }).state
        = { disabled := true, isRunning := false,
            res := some { logs := [], duration := 7 }, code := "x" } ∧
      (runStart { disabled := true, isRunning := false,
                  res := some { logs := [], duration := 7 }, code := "x" }).request = none ∧
      (runStart { disabled := true, isRunning := false,
                  res := some { logs := [], duration := 7 }, code := "x" }).warned = true) :=
  ⟨rfl, run_disabled_noop _ rfl⟩

/-- C1 counterexample: a concrete enabled state holding a previous result
still holds that same result (not none) immediately after the synchronous
prefix of run(), i.e. while the new run is pending. -/
theorem run_start_retains_result_cex :
    (runStart { disabled := false, isRunning := false,
                res := some { logs := [], duration := 1 }, code := "x" }).state.res
      = some { logs := [], duration := 1 } ∧
    (runStart { disabled := false, isRunning := false,
                res := some { logs := [], duration := 1 }, code := "x" }).state.res
      ≠ none := by
  refine ⟨rfl, ?_⟩
  intro h
  simp [runStart] at h

/-- C1 (amended): when run() is invoked while enabled, the orchestrator
enters the Running state and issues one request carrying the current code,
but it does NOT clear the previously stored ExecutionResult: the prior result
is retained unchanged while the new run is pending. -/
theorem run_start_keeps_previous_result (s : PlaygroundState)
    (h : s.disabled = false) :
    (runStart s).state.res = s.res ∧ (runStart s).state.isRunning = true ∧
    (runStart s).request = some s.code := by
  simp [runStart, h]

theorem run_start_keeps_previous_result_wit :
    ({ disabled := false, isRunning := false,
       res := some { logs := [], duration := 2 }, code := "y" } : PlaygroundState).disabled
      = false ∧
    ((runStart { disabled := false, isRunning := false,
                 res := some { logs := [], duration := 2 }, code := "y" }).state.res
        = some { logs := [], duration := 2 } ∧
      (runStart { disabled := false, isRunning := false,
                  res := some { logs := [], duration := 2 }, code := "y" }).state.isRunning
        = true ∧
      (runStart { disabled := false, isRunning := false,
                  res := some { logs := [], duration := 2 }, code := "y" }).request
        = some "y") :=
  ⟨rfl, run_start_keeps_previous_result _ rfl⟩

/-- C2: the source's level filter list omits "debug", so a debug record is
excluded from the rendered sequence entirely, even though the per-record
severity styling does map the debug level to the muted presentation — the
muted branch is unreachable through the filter. -/
theorem debug_level_filtered_out :
    SUPPORTED_LOG_LEVELS.contains "debug" = false ∧
    renderLogs (some { logs := [{ level := "debug", args := [Value.vStr "x"] }],
                       duration := 0 })
      = Except.ok [] ∧
    classify "debug" = "muted" :=
  ⟨rfl, rfl, rfl⟩

/-- C5 counterexample: an update event that carries a document change whose
content equals the current CodeState ("a") still dispatches one code-change
notification — the listener checks only docChanged, never content equality. -/
theorem local_edit_equal_content_cex :
    updateListener "a" { docChanged := true, content := "a" }
      = ("a", [OutEvent.codeChange "a"]) ∧
    (updateListener "a" { docChanged := true, content := "a" }).2.length = 1 :=
  ⟨rfl, rfl⟩

/-- C5 (amended): the listener suppresses the outward notification only for
update events with no document change; any event carrying a document change
dispatches exactly one code-change notification, even when the reported
content equals the current CodeState. -/
theorem local_edit_notification_behavior (code v : String) :
    updateListener code { docChanged := false, content := v } = (code, []) ∧
    updateListener code { docChanged := true, content := v }
      = (v, [OutEvent.codeChange v]) :=
  ⟨rfl, rfl⟩

/-- C6: for every log record with level "table" whose first argument is not
an array, printLog fails with the invalid-rows error, propagated to the
caller as a thrown error rather than partial output. -/
theorem printLog_invalid_rows_error (log : Log) (h1 : log.level = "table")
    (h2 : firstArgIsArray log = false) :
    printLog log = Except.error "Invalid table rows" := by
  unfold printLog
  rw [if_pos h1]
  unfold firstArgIsArray at h2
  cases hv : log.args[0]? with
  | none => rfl
  | some v =>
    rw [hv] at h2
    cases v <;> first | rfl | (exfalso; simp at h2)

theorem printLog_invalid_rows_error_wit :
    ({ level := "table", args := [Value.vNum 0] } : Log).level = "table" ∧
    firstArgIsArray { level := "table", args := [Value.vNum 0] } = false ∧
    printLog { level := "table", args := [Value.vNum 0] }
      = Except.error "Invalid table rows" :=
  ⟨rfl, rfl, printLog_invalid_rows_error _ rfl rfl⟩

/-- C7: for every log record whose level is not "table", printLog returns the
per-argument formatted texts joined by single spaces in argument order, and
the formatter is the identity on string arguments. -/
theorem printLog_nontable_join (log : Log) (h : log.level ≠ "table") :
    printLog log = Except.ok (String.intercalate " " (log.args.map format)) ∧
    ∀ s, format (Value.vStr s) = s := by
  refine ⟨?_, fun s => rfl⟩
  unfold printLog
  rw [if_neg h]

theorem printLog_nontable_join_wit :
    ({ level := "log", args := [Value.vStr "a", Value.vNum 3] } : Log).level ≠ "table" ∧
    (printLog { level := "log", args := [Value.vStr "a", Value.vNum 3] }
        = Except.ok (String.intercalate " "
            ([Value.vStr "a", Value.vNum 3].map format)) ∧
      ∀ s, format (Value.vStr s) = s) :=
  ⟨by decide, printLog_nontable_join _ (by decide)⟩

/-- C8: two consecutive external pushes of the same value dispatch at most one
document-replace command in total, and a push whose value already equals the
document content dispatches none. -/
theorem external_push_idempotent (v : String) (s : SyncState) :
    (externalPush v (externalPush v s)).replaces ≤ s.replaces + 1 ∧
    (s.doc = v → (externalPush v s).replaces = s.replaces) := by
  have key : ∀ t : SyncState, t.code = v → externalPush v t = t := by
    intro t ht
    simp [externalPush, ht.symm]
  by_cases h1 : v = s.code
  · have e1 : externalPush v s = s := by simp [externalPush, h1]
    rw [e1, e1]
    exact ⟨Nat.le_succ _, fun _ => rfl⟩
  · by_cases h2 : s.doc = v
    · have e1 : externalPush v s = { s with code := v } := by
        simp [externalPush, h1, h2]
      rw [e1, key _ rfl]
      exact ⟨Nat.le_succ _, fun _ => rfl⟩
    · have e1 : externalPush v s = { code := v, doc := v, replaces := s.replaces + 1 } := by
        simp [externalPush, h1, h2]
      rw [e1, key _ rfl]
      exact ⟨Nat.le_refl _, fun hdv => absurd hdv h2⟩

theorem external_push_idempotent_wit :
    ({ code := "x", doc := "a", replaces := 0 } : SyncState).doc = "a" ∧
    (externalPush "a" (externalPush "a" { code := "x", doc := "a", replaces := 0 })).replaces
      ≤ 0 + 1 ∧
    (externalPush "a" { code := "x", doc := "a", replaces := 0 }).replaces = 0 :=
  ⟨rfl, (external_push_idempotent "a" { code := "x", doc := "a", replaces := 0 }).1,
    (external_push_idempotent "a" { code := "x", doc := "a", replaces := 0 }).2 rfl⟩

/-- C10: a table record whose first argument is the empty array returns the
empty rendered table without throwing, even when a second, non-array explicit
columns argument is present — the column validation sits inside the per-row
loop and is skipped when there are zero rows. -/
theorem empty_table_skips_column_check (log : Log)
    (h1 : log.level = "table") (h2 : log.args[0]? = some (Value.vArr []))
    (h3 : secondArgPresentNonArray log = true) :
    printLog log = Except.ok (tableToString []) := by
  unfold printLog
  rw [if_pos h1, h2]
  rfl

theorem empty_table_skips_column_check_wit :
    ({ level := "table", args := [Value.vArr [], Value.vNum 5] } : Log).level = "table" ∧
    ({ level := "table", args := [Value.vArr [], Value.vNum 5] } : Log).args[0]?
      = some (Value.vArr []) ∧
    secondArgPresentNonArray { level := "table", args := [Value.vArr [], Value.vNum 5] }
      = true ∧
    printLog { level := "table", args := [Value.vArr [], Value.vNum 5] }
      = Except.ok (tableToString []) :=
  ⟨rfl, rfl, rfl, empty_table_skips_column_check _ rfl rfl rfl⟩

theorem renderList_error_of_mem (logs : List Log) (l : Log) (hl : l ∈ logs)
    (e : String) (he : printLog l = Except.error e) :
    ∃ e2, renderList logs = Except.error e2 := by
  induction logs with
  | nil => cases hl
  | cons g gs ih =>
    unfold renderList
    cases hp : printLog g with
    | error e3 => exact ⟨e3, rfl⟩
    | ok t =>
      have h2 : l ∈ gs := by
        rcases List.mem_cons.mp hl with h | h
        · subst h
          rw [he] at hp
          cases hp
        · exact h
      obtain ⟨e2, hr⟩ := ih h2
      rw [hr]
      exact ⟨e2, rfl⟩

/-- C4 counterexample: a log sequence holding two well-formed records around
one malformed table record renders to a single propagated error — no display
text is produced for the well-formed records. -/
theorem render_isolation_cex :
    renderLogs (some { logs := [
        { level := "log", args := [Value.vStr "ok1"] },
        { level := "table", args := [Value.vNum 0] },
        { level := "log", args := [Value.vStr "ok2"] }], duration := 0 })
      = Except.error "Invalid table rows" := by
  rfl

/-- C4 (amended): there is no per-record isolation — whenever any displayed
record's formatting fails, the whole rendering pass fails, producing no
display text for the other, well-formed records. -/
theorem render_failure_aborts_pass (res : ExecutionResult) (l : Log)
    (hl : l ∈ res.logs) (hsup : SUPPORTED_LOG_LEVELS.contains l.level = true)
    (e : String) (he : printLog l = Except.error e) :
    ∃ e2, renderLogs (some res) = Except.error e2 := by
  have hf : l ∈ res.logs.filter (fun g => SUPPORTED_LOG_LEVELS.contains g.level) :=
    List.mem_filter.mpr ⟨hl, hsup⟩
  exact renderList_error_of_mem _ l hf e he

theorem render_failure_aborts_pass_wit :
    ({ level := "table", args := [Value.vNum 0] } : Log)
      ∈ ([{ level := "log", args := [Value.vStr "ok1"] },
          { level := "table", args := [Value.vNum 0] },
          { level := "log", args := [Value.vStr "ok2"] }] : List Log) ∧
    SUPPORTED_LOG_LEVELS.contains "table" = true ∧
    printLog { level := "table", args := [Value.vNum 0] }
      = Except.error "Invalid table rows" ∧
    ∃ e2, renderLogs (some { logs := [
        { level := "log", args := [Value.vStr "ok1"] },
        { level := "table", args := [Value.vNum 0] },
        { level := "log", args := [Value.vStr "ok2"] }], duration := 0 })
      = Except.error e2 :=
  ⟨List.mem_cons_of_mem _ (List.mem_cons_self _ _), rfl, rfl,
    render_failure_aborts_pass _ _
      (List.mem_cons_of_mem _ (List.mem_cons_self _ _)) rfl _ rfl⟩

theorem mem_addColumns_left (x : String) (acc cs : List String) (hx : x ∈ acc) :
    x ∈ addColumns acc cs := by
  induction cs generalizing acc with
  | nil => exact hx
  | cons c cs ih =>
    unfold addColumns
    by_cases h : acc.contains c
    · rw [if_pos h]
      exact ih acc hx
    · rw [if_neg h]
      exact ih _ (List.mem_append_left _ hx)

theorem mem_addColumns_right (x : String) (acc cs : List String) (hx : x ∈ cs) :
    x ∈ addColumns acc cs := by
  induction cs generalizing acc with
  | nil => cases hx
  | cons c cs ih =>
    unfold addColumns
    by_cases hc : acc.contains c
    · rw [if_pos hc]
      rcases List.mem_cons.mp hx with h | h
      · subst h
        exact mem_addColumns_left x acc cs (List.mem_of_elem_eq_true hc)
      · exact ih acc h
    · rw [if_neg hc]
      rcases List.mem_cons.mp hx with h | h
      · subst h
        exact mem_addColumns_left x _ cs
          (List.mem_append_right _ (List.mem_singleton.mpr rfl))
      · exact ih _ h

theorem mem_collectColumnsAux_left (x : String) (acc : List String)
    (cells : List (List (String × String))) (hx : x ∈ acc) :
    x ∈ collectColumnsAux acc cells := by
  induction cells generalizing acc with
  | nil => exact hx
  | cons row rest ih => exact ih _ (mem_addColumns_left x acc _ hx)

theorem mem_collectColumnsAux_of_mem_row (x : String)
    (row : List (String × String)) (cells : List (List (String × String)))
    (hrow : row ∈ cells) (hx : x ∈ row.map Prod.fst) :
    ∀ acc, x ∈ collectColumnsAux acc cells := by
  induction cells with
  | nil => cases hrow
  | cons r rest ih =>
    intro acc
    rcases List.mem_cons.mp hrow with h | h
    · subst h
      exact mem_collectColumnsAux_left x _ rest (mem_addColumns_right x acc _ hx)
    · exact ih h (addColumns acc (r.map Prod.fst))

theorem mem_collectColumns_of_mem_row (x : String)
    (row : List (String × String)) (cells : List (List (String × String)))
    (hrow : row ∈ cells) (hx : x ∈ row.map Prod.fst) :
    x ∈ collectColumns cells :=
  mem_collectColumnsAux_of_mem_row x row cells hrow hx []

theorem rowCells_single_arg_obj (a : Value) (idx : Nat)
    (kvs : List (String × Value)) :
    rowCells [a] idx (Value.vObj kvs) =
      Except.ok (("(idx)", toString idx) ::
        (kvs.map Prod.fst).map
          (fun c => (c, jsString (jsGetD (Value.vObj kvs) c)))) := by
  simp [rowCells, jsKeys]

theorem tableRowsAux_single_arg (a : Value) (rows : List Value) (idx : Nat)
    (cells : List (List (String × String))) (i : Nat)
    (kvs : List (String × Value))
    (hok : tableRowsAux [a] idx rows = Except.ok cells)
    (hrow : rows[i]? = some (Value.vObj kvs)) :
    cells[i]?.map (fun r => r.map Prod.fst)
      = some ("(idx)" :: kvs.map Prod.fst) := by
  induction rows generalizing idx cells i with
  | nil => simp at hrow
  | cons r rs ih =>
    unfold tableRowsAux at hok
    cases hc : rowCells [a] idx r with
    | error e =>
      rw [hc] at hok
      cases hok
    | ok c =>
      rw [hc] at hok
      cases hrest : tableRowsAux [a] (idx + 1) rs with
      | error e =>
        rw [hrest] at hok
        cases hok
      | ok rest =>
        rw [hrest] at hok
        injection hok with hcc
        subst hcc
        cases i with
        | zero =>
          simp only [List.getElem?_cons_zero, Option.some.injEq] at hrow
          subst hrow
          rw [rowCells_single_arg_obj] at hc
          injection hc with hcv
          subst hcv
          simp [List.map_map, Function.comp]
        | succ i =>
          simp only [List.getElem?_cons_succ] at hrow
          simpa using ih (idx + 1) rest i hrest hrow

/-- C3 counterexample: with no explicit column list and rows
[(a: 1), (a: 2, b: 3)], the second row's extra key b produces a cell and a
printed column, although b is not a key of the first row — the effective
columns are not derived from the first row only. -/
theorem table_first_row_columns_cex :
    tableRows
        [Value.vArr [Value.vObj [("a", Value.vNum 1)],
                     Value.vObj [("a", Value.vNum 2), ("b", Value.vNum 3)]]]
        [Value.vObj [("a", Value.vNum 1)],
         Value.vObj [("a", Value.vNum 2), ("b", Value.vNum 3)]]
      = Except.ok [[("(idx)", "0"), ("a", "1")],
                   [("(idx)", "1"), ("a", "2"), ("b", "3")]] ∧
    jsKeys (Value.vObj [("a", Value.vNum 1)]) = Except.ok ["a"] ∧
    "b" ∈ collectColumns [[("(idx)", "0"), ("a", "1")],
                          [("(idx)", "1"), ("a", "2"), ("b", "3")]] ∧
    "b" ∉ ["a"] := by
  refine ⟨?_, rfl, ?_, ?_⟩
  · simp [tableRows, tableRowsAux, rowCells, jsKeys, jsGetD, jsString]
    decide
  · decide
  · decide

/-- C3 (amended): with a non-empty row sequence and no explicit column list,
the effective columns for each row are derived from that row's own keys (not
from the first row), so a key present only in a later row contributes its own
cell in that row and its own printed column. -/
theorem table_columns_from_each_row (rows : List Value)
    (cells : List (List (String × String))) (i : Nat)
    (kvs : List (String × Value))
    (hok : tableRows [Value.vArr rows] rows = Except.ok cells)
    (hrow : rows[i]? = some (Value.vObj kvs)) :
    cells[i]?.map (fun r => r.map Prod.fst)
      = some ("(idx)" :: kvs.map Prod.fst) ∧
    ∀ k, k ∈ kvs.map Prod.fst → k ∈ collectColumns cells := by
  have h1 := tableRowsAux_single_arg (Value.vArr rows) rows 0 cells i kvs hok hrow
  refine ⟨h1, fun k hk => ?_⟩
  cases hcell : cells[i]? with
  | none =>
    rw [hcell] at h1
    cases h1
  | some row =>
    rw [hcell] at h1
    injection h1 with h2
    have h3 : row.map Prod.fst = "(idx)" :: kvs.map Prod.fst := h2
    exact mem_collectColumns_of_mem_row k row cells
      (List.getElem?_mem hcell)
      (by rw [h3]; exact List.mem_cons_of_mem _ hk)

theorem table_columns_from_each_row_wit :
    tableRows
        [Value.vArr [Value.vObj [("a", Value.vNum 1)],
                     Value.vObj [("a", Value.vNum 2), ("b", Value.vNum 3)]]]
        [Value.vObj [("a", Value.vNum 1)],
         Value.vObj [("a", Value.vNum 2), ("b", Value.vNum 3)]]
      = Except.ok [[("(idx)", "0"), ("a", "1")],
                   [("(idx)", "1"), ("a", "2"), ("b", "3")]] ∧
    ([Value.vObj [("a", Value.vNum 1)],
      Value.vObj [("a", Value.vNum 2), ("b", Value.vNum 3)]])[1]?
      = some (Value.vObj [("a", Value.vNum 2), ("b", Value.vNum 3)]) ∧
    (([[("(idx)", "0"), ("a", "1")],
       [("(idx)", "1"), ("a", "2"), ("b", "3")]] :
        List (List (String × String)))[1]?.map (fun r => r.map Prod.fst)
        = some ("(idx)" :: ([("a", Value.vNum 2), ("b", Value.vNum 3)] :
            List (String × Value)).map Prod.fst) ∧
      ∀ k, k ∈ ([("a", Value.vNum 2), ("b", Value.vNum 3)] :
          List (String × Value)).map Prod.fst →
        k ∈ collectColumns [[("(idx)", "0"), ("a", "1")],
                            [("(idx)", "1"), ("a", "2"), ("b", "3")]]) := by
  have hok : tableRows
      [Value.vArr [Value.vObj [("a", Value.vNum 1)],
                   Value.vObj [("a", Value.vNum 2), ("b", Value.vNum 3)]]]
      [Value.vObj [("a", Value.vNum 1)],
       Value.vObj [("a", Value.vNum 2), ("b", Value.vNum 3)]]
      = Except.ok [[("(idx)", "0"), ("a", "1")],
                   [("(idx)", "1"), ("a", "2"), ("b", "3")]] := by
    simp [tableRows, tableRowsAux, rowCells, jsKeys, jsGetD, jsString]
    decide
  exact ⟨hok, rfl, table_columns_from_each_row _ _ 1 _ hok rfl⟩

end VtPlayground
